import Mathlib

/-!
# Parcel tracker service: a shallow embedding

This file embeds the parcel-tracking program (a Go CRUD layer over a
single `parcel` table plus a three-state lifecycle) into Lean.

* `Parcel` mirrors the `Parcel` struct of `main.go`.
* `ParcelStore` models the SQLite-backed store of `parcel.go` as a list
  of rows together with the next auto-assigned row id.  The driver can
  fail for I/O reasons; that environment behaviour is modelled by the
  `dbFail` flag: when it is set every statement returns a storage error
  and changes nothing, exactly as a failed `db.Exec`/`db.Query` does.
* The store operations `Add`, `Get`, `GetByClient`, `SetStatus`,
  `SetAddress`, `Delete` translate the SQL statements of `parcel.go`
  row by row: an `UPDATE ... WHERE cond` maps the rows satisfying
  `cond`, a `DELETE ... WHERE cond` filters them out, `QueryRow`
  returns the first matching row and `sql.ErrNoRows` (modelled as
  `StoreErr.notFound`) when there is none.
* The service operations `Register`, `NextStatus`, `ChangeAddress`,
  `Delete`, `ListByClient` translate `main.go`.  `time.Now().UTC()` is
  an input of the model (the `createdAt` argument of `Register`).

Mutating operations return the result together with the store after the
call, so that "performs no write" is expressible as equality of stores.
-/

/-- Errors surfaced by the store: `notFound` is `sql.ErrNoRows` from
`Get`; `storage` is any driver/I-O failure of a statement. -/
inductive StoreErr where
  | notFound
  | storage
deriving DecidableEq, Repr

/-- The `Parcel` struct of `main.go`: number, client, status, address,
creation timestamp. -/
structure Parcel where
  number : Int
  client : Int
  status : String
  address : String
  createdAt : String
deriving DecidableEq, Repr

/-- The store backing `ParcelStore` of `parcel.go`: the rows of the
`parcel` table, the next id the database will assign (`number` is the
auto-increment primary key), and whether the database connection is
failing (environment model of driver errors). -/
structure ParcelStore where
  rows : List Parcel
  nextId : Int
  dbFail : Bool
deriving DecidableEq, Repr

namespace ParcelStore

/-- `ParcelStore.Add`: `INSERT INTO parcel (client, status, address,
created_at) VALUES (...)`, then `LastInsertId`.  The stored row gets
the store-assigned `number`; the other fields are taken verbatim from
the input. -/
def Add (s : ParcelStore) (p : Parcel) : Except StoreErr Int × ParcelStore :=
  if s.dbFail then (.error .storage, s)
  else
    (.ok s.nextId,
      { s with rows := s.rows ++ [{ p with number := s.nextId }],
               nextId := s.nextId + 1 })

/-- `ParcelStore.Get`: `SELECT ... FROM parcel WHERE number = :number`
via `QueryRow`/`Scan`; `sql.ErrNoRows` when no row matches. -/
def Get (s : ParcelStore) (number : Int) : Except StoreErr Parcel :=
  if s.dbFail then .error .storage
  else
    match s.rows.find? (fun p => p.number == number) with
    | some p => .ok p
    | none => .error .notFound

/-- `ParcelStore.GetByClient`: `SELECT ... FROM parcel WHERE client =
:client`; an empty result set is not an error. -/
def GetByClient (s : ParcelStore) (client : Int) : Except StoreErr (List Parcel) :=
  if s.dbFail then .error .storage
  else .ok (s.rows.filter (fun p => p.client == client))

/-- `ParcelStore.SetStatus`: `UPDATE parcel SET status = :status WHERE
number = :number` — unconditional on the current status. -/
def SetStatus (s : ParcelStore) (number : Int) (status : String) :
    Except StoreErr Unit × ParcelStore :=
  if s.dbFail then (.error .storage, s)
  else
    (.ok (),
      { s with rows := s.rows.map (fun p =>
          if p.number == number then { p with status := status } else p) })

/-- `ParcelStore.SetAddress`: `UPDATE parcel SET address = :address
WHERE number = :number AND status = 'registered'`. -/
def SetAddress (s : ParcelStore) (number : Int) (address : String) :
    Except StoreErr Unit × ParcelStore :=
  if s.dbFail then (.error .storage, s)
  else
    (.ok (),
      { s with rows := s.rows.map (fun p =>
          if p.number == number && p.status == "registered" then
            { p with address := address }
          else p) })

/-- `ParcelStore.Delete`: `DELETE FROM parcel WHERE number = :number
AND status = 'registered'`. -/
def Delete (s : ParcelStore) (number : Int) : Except StoreErr Unit × ParcelStore :=
  if s.dbFail then (.error .storage, s)
  else
    (.ok (),
      { s with rows := s.rows.filter (fun p =>
          !(p.number == number && p.status == "registered")) })

end ParcelStore

namespace ParcelService

/-- `ParcelService.Register`: builds the parcel with status
`registered` and the current UTC timestamp (an input here), delegates
to `Add`, and on success returns the record with the assigned number.
On `Add` failure it returns the error `Add` surfaced. -/
def Register (s : ParcelStore) (client : Int) (address createdAt : String) :
    Except StoreErr Parcel × ParcelStore :=
  let parcel : Parcel :=
    { number := 0, client := client, status := "registered",
      address := address, createdAt := createdAt }
  match ParcelStore.Add s parcel with
  | (.error e, s1) => (.error e, s1)
  | (.ok id, s1) => (.ok { parcel with number := id }, s1)

/-- `ParcelService.NextStatus` (spec: `Advance`): looks the parcel up,
then switches on its status: `registered → sent`, `sent → delivered`,
`delivered` returns early with no write; any other status falls
through the switch with the zero-value `nextStatus = ""` and still
calls `SetStatus`. -/
def NextStatus (s : ParcelStore) (number : Int) : Except StoreErr Unit × ParcelStore :=
  match ParcelStore.Get s number with
  | .error e => (.error e, s)
  | .ok parcel =>
    if parcel.status == "registered" then ParcelStore.SetStatus s number "sent"
    else if parcel.status == "sent" then ParcelStore.SetStatus s number "delivered"
    else if parcel.status == "delivered" then (.ok (), s)
    else ParcelStore.SetStatus s number ""

/-- `ParcelService.ChangeAddress`: delegates directly to the store's
`SetAddress`. -/
def ChangeAddress (s : ParcelStore) (number : Int) (address : String) :
    Except StoreErr Unit × ParcelStore :=
  ParcelStore.SetAddress s number address

/-- `ParcelService.Delete`: delegates directly to the store's
`Delete`. -/
def Delete (s : ParcelStore) (number : Int) : Except StoreErr Unit × ParcelStore :=
  ParcelStore.Delete s number

/-- The data part of `PrintClientParcels` (spec: `ListByClient`):
delegates to `GetByClient`. -/
def ListByClient (s : ParcelStore) (client : Int) : Except StoreErr (List Parcel) :=
  ParcelStore.GetByClient s client

end ParcelService

/-- The store `main` starts from: an empty table over a healthy
database connection; SQLite assigns row ids from 1. -/
def emptyStore : ParcelStore := { rows := [], nextId := 1, dbFail := false }

/-- One invocation of a Parcel Service operation. -/
inductive Op where
  | register (client : Int) (address createdAt : String)
  | advance (number : Int)
  | changeAddress (number : Int) (address : String)
  | del (number : Int)
deriving DecidableEq, Repr

/-- The store after running one service operation (the result value is
dropped; the state is what the invariants are about). -/
def applyOp (s : ParcelStore) : Op → ParcelStore
  | .register c a ts => (ParcelService.Register s c a ts).2
  | .advance n => (ParcelService.NextStatus s n).2
  | .changeAddress n a => (ParcelService.ChangeAddress s n a).2
  | .del n => (ParcelService.Delete s n).2

/-- Store states reachable from the empty store by service
operations. -/
inductive Reachable : ParcelStore → Prop where
  | empty : Reachable emptyStore
  | step (s : ParcelStore) (op : Op) : Reachable s → Reachable (applyOp s op)

/-- A status string is one of the three lifecycle states. -/
def KnownStatus (st : String) : Prop :=
  st = "registered" ∨ st = "sent" ∨ st = "delivered"

instance (st : String) : Decidable (KnownStatus st) := by
  unfold KnownStatus; infer_instance

/-- Store invariant maintained by the service operations: every stored
status is a lifecycle state, row ids are below the next id to be
assigned, and row ids are pairwise distinct (primary key). -/
def StoreInv (s : ParcelStore) : Prop :=
  (∀ p ∈ s.rows, KnownStatus p.status) ∧
  (∀ p ∈ s.rows, p.number < s.nextId) ∧
  s.rows.Pairwise (fun p q => p.number ≠ q.number)

/-! ## Helper lemmas -/

lemma get_ok_iff (s : ParcelStore) (n : Int) (q : Parcel) :
    ParcelStore.Get s n = .ok q ↔
      s.dbFail = false ∧ s.rows.find? (fun p => p.number == n) = some q := by
  unfold ParcelStore.Get
  cases hf : s.dbFail
  · cases hfind : s.rows.find? (fun p => p.number == n) <;> simp [hfind]
  · simp

lemma get_ok_mem {s : ParcelStore} {n : Int} {q : Parcel}
    (h : ParcelStore.Get s n = .ok q) :
    s.dbFail = false ∧ q ∈ s.rows ∧ q.number = n := by
  rw [get_ok_iff] at h
  refine ⟨h.1, List.mem_of_find?_eq_some h.2, ?_⟩
  have := List.find?_some h.2
  simpa using this

lemma find?_map_pres (f : Parcel → Parcel) (hf : ∀ p, (f p).number = p.number)
    (n : Int) :
    ∀ (l : List Parcel) (q : Parcel),
      l.find? (fun p => p.number == n) = some q →
        (l.map f).find? (fun p => p.number == n) = some (f q) := by
  intro l
  induction l with
  | nil => intro q h; simp [List.find?] at h
  | cons a l ih =>
    intro q h
    by_cases ha : a.number = n
    · rw [List.find?_cons_of_pos _ (by simpa using ha)] at h
      rw [List.map_cons, List.find?_cons_of_pos _ (by simpa [hf] using ha)]
      simp only [Option.some.injEq] at h ⊢
      exact congrArg f h
    · rw [List.find?_cons_of_neg _ (by simpa using ha)] at h
      rw [List.map_cons, List.find?_cons_of_neg _ (by simpa [hf] using ha)]
      exact ih q h

lemma list_map_id_of_mem {f : Parcel → Parcel} :
    ∀ {l : List Parcel}, (∀ p ∈ l, f p = p) → l.map f = l := by
  intro l h
  induction l with
  | nil => rfl
  | cons a l ih =>
    rw [List.map_cons, h a (List.mem_cons_self a l),
      ih (fun p hp => h p (List.mem_cons_of_mem a hp))]

lemma pairwise_ne_mem_eq :
    ∀ {l : List Parcel}, l.Pairwise (fun p q => p.number ≠ q.number) →
      ∀ {p q : Parcel}, p ∈ l → q ∈ l → p.number = q.number → p = q := by
  intro l h
  induction h with
  | nil => intro p q hp; cases hp
  | @cons a l hhead _ ih =>
    intro p q hp hq hn
    rcases List.mem_cons.mp hp with hp | hp <;>
      rcases List.mem_cons.mp hq with hq | hq
    · rw [hp, hq]
    · exact absurd (hp ▸ hn) (hhead q hq)
    · exact absurd (hq ▸ hn).symm (hhead p hp)
    · exact ih hp hq hn

/-! ## Sample data for witnesses -/

def sampleReg : Parcel := ⟨1, 1, "registered", "addr one", "ts one"⟩

def sampleSent : Parcel := ⟨2, 1, "sent", "addr two", "ts two"⟩

def sampleDone : Parcel := ⟨3, 2, "delivered", "addr three", "ts three"⟩

def sampleStore : ParcelStore := ⟨[sampleReg, sampleSent, sampleDone], 4, false⟩

/-! ## Claims -/

/-- C1: for every parcel present in the store, `NextStatus` computes
the next status by the table `registered → sent`, `sent → delivered`
and then calls `SetStatus number nextStatus`; on a `delivered` parcel
it performs no write and returns success. -/
theorem claim_C1_advance_table (s : ParcelStore) (n : Int) (q : Parcel)
    (hq : ParcelStore.Get s n = .ok q) :
    (q.status = "registered" →
      ParcelService.NextStatus s n = ParcelStore.SetStatus s n "sent") ∧
    (q.status = "sent" →
      ParcelService.NextStatus s n = ParcelStore.SetStatus s n "delivered") ∧
    (q.status = "delivered" →
      ParcelService.NextStatus s n = (Except.ok (), s)) := by
  unfold ParcelService.NextStatus
  rw [hq]
  refine ⟨fun hst => ?_, fun hst => ?_, fun hst => ?_⟩ <;> simp [hst]

/-- C1 witness: the table at a concrete store holding a `registered`
parcel number 1. -/
theorem claim_C1_advance_table_witness :
    ParcelStore.Get sampleStore 1 = .ok sampleReg ∧
    ((sampleReg.status = "registered" →
        ParcelService.NextStatus sampleStore 1 = ParcelStore.SetStatus sampleStore 1 "sent") ∧
     (sampleReg.status = "sent" →
        ParcelService.NextStatus sampleStore 1 = ParcelStore.SetStatus sampleStore 1 "delivered") ∧
     (sampleReg.status = "delivered" →
        ParcelService.NextStatus sampleStore 1 = (Except.ok (), sampleStore))) :=
  ⟨by rfl, claim_C1_advance_table sampleStore 1 sampleReg (by rfl)⟩

/-- C2: `SetAddress` (and hence `ChangeAddress`, which delegates to
it) overwrites a record's address only when its current status is
`registered`; when no record with the given number is in `registered`
state — the record is absent, or `sent`, or `delivered` — the call
returns no error and changes no stored data. -/
theorem claim_C2_setaddress_registered_only (s : ParcelStore) (n : Int) (a : String)
    (hdb : s.dbFail = false) :
    ParcelService.ChangeAddress s n a = ParcelStore.SetAddress s n a ∧
    (ParcelService.ChangeAddress s n a).1 = .ok () ∧
    (∀ p ∈ s.rows, p.number = n → p.status = "registered" →
        { p with address := a } ∈ (ParcelService.ChangeAddress s n a).2.rows) ∧
    (∀ p ∈ s.rows, (p.number = n → p.status ≠ "registered") →
        p ∈ (ParcelService.ChangeAddress s n a).2.rows) ∧
    ((∀ p ∈ s.rows, p.number = n → p.status ≠ "registered") →
        (ParcelService.ChangeAddress s n a).2 = s) := by
  unfold ParcelService.ChangeAddress ParcelStore.SetAddress
  simp only [hdb, Bool.false_eq_true, if_false]
  refine ⟨trivial, trivial, ?_, ?_, ?_⟩
  · intro p hp hpn hps
    exact List.mem_map.mpr ⟨p, hp, by simp [hpn, hps]⟩
  · intro p hp hguard
    refine List.mem_map.mpr ⟨p, hp, ?_⟩
    by_cases hn : p.number = n
    · simp [hn, hguard hn]
    · simp [hn]
  · intro hguard
    have hmap : s.rows.map (fun p =>
        if p.number == n && p.status == "registered" then
          { p with address := a } else p) = s.rows := by
      refine list_map_id_of_mem (fun p hp => ?_)
      by_cases hn : p.number = n
      · simp [hn, hguard p hp hn]
      · simp [hn]
    rw [hmap, ← hdb]

/-- C2 witness: changing the address of the `sent` parcel number 2 in
the sample store. -/
theorem claim_C2_setaddress_registered_only_witness :
    sampleStore.dbFail = false ∧
    (ParcelService.ChangeAddress sampleStore 2 "elsewhere" =
        ParcelStore.SetAddress sampleStore 2 "elsewhere" ∧
     (ParcelService.ChangeAddress sampleStore 2 "elsewhere").1 = .ok () ∧
     (∀ p ∈ sampleStore.rows, p.number = 2 → p.status = "registered" →
         { p with address := "elsewhere" } ∈
           (ParcelService.ChangeAddress sampleStore 2 "elsewhere").2.rows) ∧
     (∀ p ∈ sampleStore.rows, (p.number = 2 → p.status ≠ "registered") →
         p ∈ (ParcelService.ChangeAddress sampleStore 2 "elsewhere").2.rows) ∧
     ((∀ p ∈ sampleStore.rows, p.number = 2 → p.status ≠ "registered") →
         (ParcelService.ChangeAddress sampleStore 2 "elsewhere").2 = sampleStore)) :=
  ⟨rfl, claim_C2_setaddress_registered_only sampleStore 2 "elsewhere" rfl⟩

/-- C3: `Delete` removes a record only when its current status is
`registered` and otherwise changes nothing and returns no error; after
deleting a `registered` parcel its number no longer appears in
`ListByClient` results, while a `sent` or `delivered` parcel survives
deletion and still appears. -/
theorem claim_C3_delete_registered_only (s : ParcelStore) (n : Int)
    (hdb : s.dbFail = false) :
    (ParcelService.Delete s n).1 = .ok () ∧
    (∀ p ∈ s.rows, (p.number = n → p.status ≠ "registered") →
        p ∈ (ParcelService.Delete s n).2.rows) ∧
    ((∀ p ∈ s.rows, p.number = n → p.status ≠ "registered") →
        (ParcelService.Delete s n).2 = s) ∧
    ((∀ p ∈ s.rows, p.number = n → p.status = "registered") →
        ∀ c l, ParcelService.ListByClient (ParcelService.Delete s n).2 c = .ok l →
          ∀ p ∈ l, p.number ≠ n) ∧
    (∀ p ∈ s.rows, p.status ≠ "registered" →
        ∀ l, ParcelService.ListByClient (ParcelService.Delete s n).2 p.client = .ok l →
          p ∈ l) := by
  unfold ParcelService.Delete ParcelStore.Delete ParcelService.ListByClient
    ParcelStore.GetByClient
  simp only [hdb, Bool.false_eq_true, if_false]
  refine ⟨trivial, ?_, ?_, ?_, ?_⟩
  · intro p hp hguard
    refine List.mem_filter.mpr ⟨hp, ?_⟩
    by_cases hn : p.number = n
    · simp [hn, hguard hn]
    · simp [hn]
  · intro hguard
    have hfil : s.rows.filter (fun p =>
        !(p.number == n && p.status == "registered")) = s.rows := by
      refine List.filter_eq_self.mpr (fun p hp => ?_)
      by_cases hn : p.number = n
      · simp [hn, hguard p hp hn]
      · simp [hn]
    rw [hfil, ← hdb]
  · intro hall c l hl p hpl
    have : l = List.filter (fun p => p.client == c)
        (s.rows.filter (fun p => !(p.number == n && p.status == "registered"))) := by
      simpa using hl.symm
    rw [this] at hpl
    have hmem := List.mem_filter.mp hpl
    have hkeep := List.mem_filter.mp hmem.1
    intro hn
    have hreg := hall p hkeep.1 hn
    simp [hn, hreg] at hkeep
  · intro p hp hps l hl
    have : l = List.filter (fun q => q.client == p.client)
        (s.rows.filter (fun q => !(q.number == n && q.status == "registered"))) := by
      simpa using hl.symm
    rw [this]
    refine List.mem_filter.mpr ⟨List.mem_filter.mpr ⟨hp, by simp [hps]⟩, by simp⟩

/-- C3 witness: deleting number 1 (registered) and the survival of the
`sent` and `delivered` rows, in the sample store. -/
theorem claim_C3_delete_registered_only_witness :
    sampleStore.dbFail = false ∧
    ((ParcelService.Delete sampleStore 1).1 = .ok () ∧
     (∀ p ∈ sampleStore.rows, (p.number = 1 → p.status ≠ "registered") →
         p ∈ (ParcelService.Delete sampleStore 1).2.rows) ∧
     ((∀ p ∈ sampleStore.rows, p.number = 1 → p.status ≠ "registered") →
         (ParcelService.Delete sampleStore 1).2 = sampleStore) ∧
     ((∀ p ∈ sampleStore.rows, p.number = 1 → p.status = "registered") →
         ∀ c l, ParcelService.ListByClient (ParcelService.Delete sampleStore 1).2 c = .ok l →
           ∀ p ∈ l, p.number ≠ 1) ∧
     (∀ p ∈ sampleStore.rows, p.status ≠ "registered" →
         ∀ l, ParcelService.ListByClient (ParcelService.Delete sampleStore 1).2 p.client = .ok l →
           p ∈ l)) :=
  ⟨rfl, claim_C3_delete_registered_only sampleStore 1 rfl⟩

/-- C4: when the `registered`-only guard of `ChangeAddress` or
`Delete` is not satisfied by any stored record with the given number,
the operation returns success — no error of any kind — and leaves the
store exactly as it was. -/
theorem claim_C4_guard_fails_silently (s : ParcelStore) (n : Int) (a : String)
    (hdb : s.dbFail = false)
    (hguard : ∀ p ∈ s.rows, p.number = n → p.status ≠ "registered") :
    ParcelService.ChangeAddress s n a = (.ok (), s) ∧
    ParcelService.Delete s n = (.ok (), s) := by
  unfold ParcelService.ChangeAddress ParcelStore.SetAddress
    ParcelService.Delete ParcelStore.Delete
  simp only [hdb, Bool.false_eq_true, if_false]
  constructor
  · have hmap : s.rows.map (fun p =>
        if p.number == n && p.status == "registered" then
          { p with address := a } else p) = s.rows := by
      refine list_map_id_of_mem (fun p hp => ?_)
      by_cases hn : p.number = n
      · simp [hn, hguard p hp hn]
      · simp [hn]
    rw [hmap, ← hdb]
  · have hfil : s.rows.filter (fun p =>
        !(p.number == n && p.status == "registered")) = s.rows := by
      refine List.filter_eq_self.mpr (fun p hp => ?_)
      by_cases hn : p.number = n
      · simp [hn, hguard p hp hn]
      · simp [hn]
    rw [hfil, ← hdb]

/-- C4 witness: number 3 is `delivered` in the sample store, so both
guarded operations are silent no-ops there. -/
theorem claim_C4_guard_fails_silently_witness :
    sampleStore.dbFail = false ∧
    (∀ p ∈ sampleStore.rows, p.number = 3 → p.status ≠ "registered") ∧
    (ParcelService.ChangeAddress sampleStore 3 "elsewhere" = (.ok (), sampleStore) ∧
     ParcelService.Delete sampleStore 3 = (.ok (), sampleStore)) :=
  ⟨rfl, by decide,
    claim_C4_guard_fails_silently sampleStore 3 "elsewhere" rfl (by decide)⟩

lemma find?_append_of_none {f : Parcel → Bool} :
    ∀ {l1 l2 : List Parcel}, l1.find? f = none → (l1 ++ l2).find? f = l2.find? f := by
  intro l1
  induction l1 with
  | nil => intro l2 _; rfl
  | cons a l ih =>
    intro l2 h
    by_cases ha : f a
    · rw [List.find?_cons_of_pos _ ha] at h; cases h
    · rw [List.find?_cons_of_neg _ (by simpa using ha)] at h
      rw [List.cons_append, List.find?_cons_of_neg _ (by simpa using ha)]
      exact ih h

/-- C6: `Register` builds the record with status `registered` and the
current timestamp, delegates to `Add`, and on success returns the
record populated with the store-assigned number, under which `Get`
finds exactly that record; on `Add` failure it fails with the error
`Add` surfaced, leaving the store untouched. -/
theorem claim_C6_register_populates (s : ParcelStore) (c : Int) (a ts : String)
    (hfresh : ∀ q ∈ s.rows, q.number < s.nextId) :
    (∀ e, (ParcelStore.Add s ⟨0, c, "registered", a, ts⟩).1 = .error e →
        ParcelService.Register s c a ts = (.error e, s)) ∧
    (s.dbFail = false →
      ∃ p s1, ParcelService.Register s c a ts = (.ok p, s1) ∧
        p.number = s.nextId ∧ p.client = c ∧ p.status = "registered" ∧
        p.address = a ∧ p.createdAt = ts ∧
        ParcelStore.Get s1 p.number = .ok p) := by
  constructor
  · intro e he
    unfold ParcelStore.Add at he
    unfold ParcelService.Register ParcelStore.Add
    cases hf : s.dbFail
    · rw [hf] at he
      simp at he
    · rw [hf] at he
      simp at he
      subst he
      rfl
  · intro hdb
    unfold ParcelService.Register ParcelStore.Add
    simp only [hdb, Bool.false_eq_true, if_false]
    refine ⟨⟨s.nextId, c, "registered", a, ts⟩, _, rfl, rfl, rfl, rfl, rfl, rfl, ?_⟩
    rw [get_ok_iff]
    refine ⟨rfl, ?_⟩
    have hnone : s.rows.find? (fun p => p.number == s.nextId) = none := by
      rw [List.find?_eq_none]
      intro q hq
      simpa using Int.ne_of_lt (hfresh q hq)
    rw [find?_append_of_none hnone]
    simp [List.find?]

/-- C6 witness: registering a parcel for client 7 in the sample
store. -/
theorem claim_C6_register_populates_witness :
    (∀ q ∈ sampleStore.rows, q.number < sampleStore.nextId) ∧
    ((∀ e, (ParcelStore.Add sampleStore ⟨0, 7, "registered", "addr new", "ts new"⟩).1 = .error e →
        ParcelService.Register sampleStore 7 "addr new" "ts new" = (.error e, sampleStore)) ∧
     (sampleStore.dbFail = false →
      ∃ p s1, ParcelService.Register sampleStore 7 "addr new" "ts new" = (.ok p, s1) ∧
        p.number = sampleStore.nextId ∧ p.client = 7 ∧ p.status = "registered" ∧
        p.address = "addr new" ∧ p.createdAt = "ts new" ∧
        ParcelStore.Get s1 p.number = .ok p)) :=
  ⟨by decide, claim_C6_register_populates sampleStore 7 "addr new" "ts new" (by decide)⟩

/-- C7: `NextStatus` on a number with no matching record fails with
the not-found error surfaced from `Get` and performs no write to the
store. -/
theorem claim_C7_advance_not_found (s : ParcelStore) (n : Int)
    (hdb : s.dbFail = false) (habs : ∀ p ∈ s.rows, p.number ≠ n) :
    ParcelStore.Get s n = .error .notFound ∧
    ParcelService.NextStatus s n = (.error .notFound, s) := by
  have hget : ParcelStore.Get s n = .error .notFound := by
    unfold ParcelStore.Get
    simp only [hdb, Bool.false_eq_true, if_false]
    have hnone : s.rows.find? (fun p => p.number == n) = none := by
      rw [List.find?_eq_none]
      intro q hq
      simpa using habs q hq
    rw [hnone]
  refine ⟨hget, ?_⟩
  unfold ParcelService.NextStatus
  rw [hget]

/-- C7 witness: number 9 is absent from the sample store. -/
theorem claim_C7_advance_not_found_witness :
    sampleStore.dbFail = false ∧
    (∀ p ∈ sampleStore.rows, p.number ≠ 9) ∧
    (ParcelStore.Get sampleStore 9 = .error .notFound ∧
     ParcelService.NextStatus sampleStore 9 = (.error .notFound, sampleStore)) :=
  ⟨rfl, by decide, claim_C7_advance_not_found sampleStore 9 rfl (by decide)⟩

/-- C8: `ListByClient` returns exactly the stored parcels whose client
matches, returns the empty sequence rather than an error when none
match, and fails only if the store fails. -/
theorem claim_C8_list_by_client (s : ParcelStore) (c : Int) :
    (s.dbFail = false →
      ∃ l, ParcelService.ListByClient s c = .ok l ∧
        ∀ p, p ∈ l ↔ p ∈ s.rows ∧ p.client = c) ∧
    (s.dbFail = false → (∀ p ∈ s.rows, p.client ≠ c) →
      ParcelService.ListByClient s c = .ok []) ∧
    (∀ e, ParcelService.ListByClient s c = .error e → s.dbFail = true) := by
  unfold ParcelService.ListByClient ParcelStore.GetByClient
  cases hf : s.dbFail
  · simp only [Bool.false_eq_true, if_false]
    refine ⟨fun _ => ⟨_, rfl, fun p => ?_⟩, fun _ hnone => ?_, fun e he => by cases he⟩
    · rw [List.mem_filter]
      simp
    · have : s.rows.filter (fun p => p.client == c) = [] := by
        rw [List.filter_eq_nil_iff]
        intro p hp
        simpa using hnone p hp
      rw [this]
  · simp

/-- C8 witness: listing client 1 in the sample store, with the
store-health hypothesis discharged. -/
theorem claim_C8_list_by_client_witness :
    ∃ l, ParcelService.ListByClient sampleStore 1 = .ok l ∧
      ∀ p, p ∈ l ↔ p ∈ sampleStore.rows ∧ p.client = 1 :=
  (claim_C8_list_by_client sampleStore 1).1 rfl

lemma setStatus_ok {s : ParcelStore} {n : Int} (st : String) (hdb : s.dbFail = false) :
    ParcelStore.SetStatus s n st =
      (.ok (), { s with rows := s.rows.map (fun p =>
          if p.number == n then { p with status := st } else p) }) := by
  unfold ParcelStore.SetStatus
  rw [hdb]
  simp

lemma nextStatus_eq_of_get {s : ParcelStore} {n : Int} {q : Parcel}
    (hq : ParcelStore.Get s n = .ok q) :
    ParcelService.NextStatus s n =
      (if q.status == "registered" then ParcelStore.SetStatus s n "sent"
       else if q.status == "sent" then ParcelStore.SetStatus s n "delivered"
       else if q.status == "delivered" then (.ok (), s)
       else ParcelStore.SetStatus s n "") := by
  unfold ParcelService.NextStatus
  rw [hq]

lemma advance_writes {s : ParcelStore} {n : Int} {q : Parcel} {st : String}
    (hq : ParcelStore.Get s n = .ok q)
    (hss : ParcelService.NextStatus s n = ParcelStore.SetStatus s n st) :
    (ParcelService.NextStatus s n).1 = .ok () ∧
    (ParcelService.NextStatus s n).2.dbFail = false ∧
    ParcelStore.Get (ParcelService.NextStatus s n).2 n = .ok { q with status := st } := by
  obtain ⟨hdb, hfind⟩ := (get_ok_iff s n q).mp hq
  have hqn0 := List.find?_some hfind
  have hqn : (q.number == n) = true := hqn0
  rw [hss, setStatus_ok st hdb]
  refine ⟨rfl, hdb, ?_⟩
  rw [get_ok_iff]
  refine ⟨hdb, ?_⟩
  have hmap := find?_map_pres
    (fun p => if p.number == n then { p with status := st } else p)
    (fun p => by by_cases h : p.number = n <;> simp [h]) n s.rows q hfind
  rw [hmap]
  simp [hqn]

/-- C9: from a `registered` parcel, three applications of `NextStatus`
yield `sent` after the first, `delivered` after the second, and the
third succeeds while changing nothing. -/
theorem claim_C9_advance_three_times (s : ParcelStore) (n : Int) (q : Parcel)
    (hq : ParcelStore.Get s n = .ok q) (hst : q.status = "registered") :
    (ParcelService.NextStatus s n).1 = .ok () ∧
    ParcelStore.Get (ParcelService.NextStatus s n).2 n = .ok { q with status := "sent" } ∧
    (ParcelService.NextStatus (ParcelService.NextStatus s n).2 n).1 = .ok () ∧
    ParcelStore.Get (ParcelService.NextStatus (ParcelService.NextStatus s n).2 n).2 n =
      .ok { q with status := "delivered" } ∧
    ParcelService.NextStatus
        (ParcelService.NextStatus (ParcelService.NextStatus s n).2 n).2 n =
      (.ok (), (ParcelService.NextStatus (ParcelService.NextStatus s n).2 n).2) := by
  have hstep1 : ParcelService.NextStatus s n = ParcelStore.SetStatus s n "sent" := by
    rw [nextStatus_eq_of_get hq]
    simp [hst]
  obtain ⟨h1ok, h1db, h1get⟩ := advance_writes hq hstep1
  have hstep2 : ParcelService.NextStatus (ParcelService.NextStatus s n).2 n =
      ParcelStore.SetStatus (ParcelService.NextStatus s n).2 n "delivered" := by
    rw [nextStatus_eq_of_get h1get]
    simp
  obtain ⟨h2ok, h2db, h2get⟩ := advance_writes h1get hstep2
  have h2get' : ParcelStore.Get
      (ParcelService.NextStatus (ParcelService.NextStatus s n).2 n).2 n =
      .ok { q with status := "delivered" } := h2get
  refine ⟨h1ok, h1get, h2ok, h2get', ?_⟩
  rw [nextStatus_eq_of_get h2get']
  simp

/-- C9 witness: parcel number 1 of the sample store is `registered`;
the three advances behave as stated there. -/
theorem claim_C9_advance_three_times_witness :
    ParcelStore.Get sampleStore 1 = .ok sampleReg ∧
    sampleReg.status = "registered" ∧
    ((ParcelService.NextStatus sampleStore 1).1 = .ok () ∧
     ParcelStore.Get (ParcelService.NextStatus sampleStore 1).2 1 =
       .ok { sampleReg with status := "sent" } ∧
     (ParcelService.NextStatus (ParcelService.NextStatus sampleStore 1).2 1).1 = .ok () ∧
     ParcelStore.Get
         (ParcelService.NextStatus (ParcelService.NextStatus sampleStore 1).2 1).2 1 =
       .ok { sampleReg with status := "delivered" } ∧
     ParcelService.NextStatus
         (ParcelService.NextStatus (ParcelService.NextStatus sampleStore 1).2 1).2 1 =
       (.ok (), (ParcelService.NextStatus (ParcelService.NextStatus sampleStore 1).2 1).2)) :=
  ⟨by rfl, rfl, claim_C9_advance_three_times sampleStore 1 sampleReg (by rfl) rfl⟩

/-- C10: on a stored status outside the three known values,
`NextStatus` does not fail: it falls through the switch and calls
`SetStatus number ""`, overwriting the status with the empty string;
if every stored status is a known lifecycle value, no such parcel
exists, so this branch is unreachable. -/
theorem claim_C10_unknown_status_fallthrough (s : ParcelStore) (n : Int) (q : Parcel)
    (hq : ParcelStore.Get s n = .ok q)
    (h1 : q.status ≠ "registered") (h2 : q.status ≠ "sent")
    (h3 : q.status ≠ "delivered") :
    ParcelService.NextStatus s n = ParcelStore.SetStatus s n "" ∧
    (ParcelService.NextStatus s n).1 = .ok () ∧
    { q with status := "" } ∈ (ParcelService.NextStatus s n).2.rows ∧
    ((∀ p ∈ s.rows, KnownStatus p.status) → False) := by
  obtain ⟨hdb, hmem, hqn⟩ := get_ok_mem hq
  have hss : ParcelService.NextStatus s n = ParcelStore.SetStatus s n "" := by
    rw [nextStatus_eq_of_get hq]
    simp [h1, h2, h3]
  refine ⟨hss, ?_, ?_, ?_⟩
  · rw [hss, setStatus_ok "" hdb]
  · rw [hss, setStatus_ok "" hdb]
    exact List.mem_map.mpr ⟨q, hmem, by simp [hqn]⟩
  · intro hall
    rcases hall q hmem with h | h | h
    exacts [h1 h, h2 h, h3 h]

/-- A store holding one row whose status is not a lifecycle value;
such a state is not reachable through the service but exercises the
fall-through branch of `NextStatus`. -/
def oddStore : ParcelStore := ⟨[⟨1, 1, "weird", "addr odd", "ts odd"⟩], 2, false⟩

/-- C10 witness: the fall-through branch at the store holding a row
with status `"weird"`. -/
theorem claim_C10_unknown_status_fallthrough_witness :
    ParcelStore.Get oddStore 1 = .ok ⟨1, 1, "weird", "addr odd", "ts odd"⟩ ∧
    (ParcelService.NextStatus oddStore 1 = ParcelStore.SetStatus oddStore 1 "" ∧
     (ParcelService.NextStatus oddStore 1).1 = .ok () ∧
     ({ (⟨1, 1, "weird", "addr odd", "ts odd"⟩ : Parcel) with status := "" } ∈
        (ParcelService.NextStatus oddStore 1).2.rows) ∧
     ((∀ p ∈ oddStore.rows, KnownStatus p.status) → False)) :=
  ⟨by rfl, claim_C10_unknown_status_fallthrough oddStore 1 ⟨1, 1, "weird", "addr odd", "ts odd"⟩
    (by rfl) (by decide) (by decide) (by decide)⟩

/-! ## State characterization of each operation -/

lemma applyOp_register (s : ParcelStore) (c : Int) (a ts : String) :
    applyOp s (.register c a ts) =
      if s.dbFail then s
      else { s with rows := s.rows ++ [⟨s.nextId, c, "registered", a, ts⟩],
                    nextId := s.nextId + 1 } := by
  unfold applyOp ParcelService.Register ParcelStore.Add
  cases hf : s.dbFail <;> simp

lemma applyOp_changeAddress (s : ParcelStore) (n : Int) (a : String) :
    applyOp s (.changeAddress n a) =
      if s.dbFail then s
      else { s with rows := s.rows.map (fun p =>
          if p.number == n && p.status == "registered" then
            { p with address := a } else p) } := by
  unfold applyOp ParcelService.ChangeAddress ParcelStore.SetAddress
  cases hf : s.dbFail <;> simp

lemma applyOp_del (s : ParcelStore) (n : Int) :
    applyOp s (.del n) =
      if s.dbFail then s
      else { s with rows := s.rows.filter (fun p =>
          !(p.number == n && p.status == "registered")) } := by
  unfold applyOp ParcelService.Delete ParcelStore.Delete
  cases hf : s.dbFail <;> simp

lemma nextStatus_state (s : ParcelStore) (n : Int) :
    (ParcelService.NextStatus s n).2 = s ∨
    ∃ q st, ParcelStore.Get s n = .ok q ∧ q ∈ s.rows ∧ q.number = n ∧
      ((q.status = "registered" ∧ st = "sent") ∨
       (q.status = "sent" ∧ st = "delivered") ∨
       (q.status ≠ "registered" ∧ q.status ≠ "sent" ∧
        q.status ≠ "delivered" ∧ st = "")) ∧
      (ParcelService.NextStatus s n).2 =
        { s with rows := s.rows.map (fun p =>
            if p.number == n then { p with status := st } else p) } := by
  cases hget : ParcelStore.Get s n with
  | error e =>
    left
    unfold ParcelService.NextStatus
    rw [hget]
  | ok q =>
    obtain ⟨hdb, hqmem, hqn⟩ := get_ok_mem hget
    by_cases h1 : q.status = "registered"
    · right
      refine ⟨q, "sent", rfl, hqmem, hqn, Or.inl ⟨h1, rfl⟩, ?_⟩
      rw [nextStatus_eq_of_get hget]
      simp only [h1]
      rw [setStatus_ok "sent" hdb]
      simp
    · by_cases h2 : q.status = "sent"
      · right
        refine ⟨q, "delivered", rfl, hqmem, hqn, Or.inr (Or.inl ⟨h2, rfl⟩), ?_⟩
        rw [nextStatus_eq_of_get hget]
        simp only [h2]
        rw [setStatus_ok "delivered" hdb]
        simp
      · by_cases h3 : q.status = "delivered"
        · left
          rw [nextStatus_eq_of_get hget]
          simp [h1, h2, h3]
        · right
          refine ⟨q, "", rfl, hqmem, hqn, Or.inr (Or.inr ⟨h1, h2, h3, rfl⟩), ?_⟩
          rw [nextStatus_eq_of_get hget]
          rw [setStatus_ok "" hdb]
          simp [h1, h2, h3]

/-! ## The store invariant is preserved by the service -/

lemma storeInv_empty : StoreInv emptyStore :=
  ⟨by simp [emptyStore], by simp [emptyStore], by simp [emptyStore]⟩

lemma storeInv_applyOp {s : ParcelStore} (h : StoreInv s) (op : Op) :
    StoreInv (applyOp s op) := by
  obtain ⟨hknown, hbound, hnodup⟩ := h
  cases op with
  | register c a ts =>
    rw [applyOp_register]
    cases hf : s.dbFail
    · simp only [Bool.false_eq_true, if_false]
      refine ⟨?_, ?_, ?_⟩
      · intro p hp
        rcases List.mem_append.mp hp with hp | hp
        · exact hknown p hp
        · rw [List.mem_singleton.mp hp]
          exact Or.inl rfl
      · intro p hp
        rcases List.mem_append.mp hp with hp | hp
        · have hb := hbound p hp
          show p.number < s.nextId + 1
          omega
        · rw [List.mem_singleton.mp hp]
          show s.nextId < s.nextId + 1
          omega
      · rw [List.pairwise_append]
        refine ⟨hnodup, List.pairwise_singleton _ _, ?_⟩
        intro p hp p' hp'
        rw [List.mem_singleton.mp hp']
        exact Int.ne_of_lt (hbound p hp)
    · simp only [if_true]
      exact ⟨hknown, hbound, hnodup⟩
  | advance n =>
    rcases nextStatus_state s n with hs' | ⟨q, st, _, hqmem, _, hcase, hs'⟩
    · show StoreInv (ParcelService.NextStatus s n).2
      rw [hs']
      exact ⟨hknown, hbound, hnodup⟩
    · show StoreInv (ParcelService.NextStatus s n).2
      rw [hs']
      have hstK : st = "sent" ∨ st = "delivered" := by
        rcases hcase with ⟨_, rfl⟩ | ⟨_, rfl⟩ | ⟨hne1, hne2, hne3, rfl⟩
        · exact Or.inl rfl
        · exact Or.inr rfl
        · rcases hknown q hqmem with hqs | hqs | hqs
          · exact absurd hqs hne1
          · exact absurd hqs hne2
          · exact absurd hqs hne3
      have hnum : ∀ r : Parcel,
          (if r.number == n then { r with status := st } else r).number = r.number := by
        intro r
        by_cases hr : r.number = n <;> simp [hr]
      have hstatus : ∀ r : Parcel,
          (if r.number == n then { r with status := st } else r).status = r.status ∨
          (if r.number == n then { r with status := st } else r).status = st := by
        intro r
        by_cases hr : r.number = n <;> simp [hr]
      refine ⟨?_, ?_, ?_⟩
      · intro p hp
        rcases List.mem_map.mp hp with ⟨r, hr, rfl⟩
        rcases hstatus r with hst | hst
        · rw [hst]
          exact hknown r hr
        · rw [hst]
          rcases hstK with rfl | rfl
          · exact Or.inr (Or.inl rfl)
          · exact Or.inr (Or.inr rfl)
      · intro p hp
        rcases List.mem_map.mp hp with ⟨r, hr, rfl⟩
        rw [hnum r]
        exact hbound r hr
      · exact List.Pairwise.map _
          (fun a b hab => by rw [hnum a, hnum b]; exact hab) hnodup
  | changeAddress n a =>
    rw [applyOp_changeAddress]
    cases hf : s.dbFail
    · simp only [Bool.false_eq_true, if_false]
      have hnum : ∀ r : Parcel,
          (if r.number == n && r.status == "registered" then
            { r with address := a } else r).number = r.number := by
        intro r
        by_cases hr : (r.number == n && r.status == "registered") = true <;> simp [hr]
      have hstatus : ∀ r : Parcel,
          (if r.number == n && r.status == "registered" then
            { r with address := a } else r).status = r.status := by
        intro r
        by_cases hr : (r.number == n && r.status == "registered") = true <;> simp [hr]
      refine ⟨?_, ?_, ?_⟩
      · intro p hp
        rcases List.mem_map.mp hp with ⟨r, hr, rfl⟩
        rw [hstatus r]
        exact hknown r hr
      · intro p hp
        rcases List.mem_map.mp hp with ⟨r, hr, rfl⟩
        rw [hnum r]
        exact hbound r hr
      · exact List.Pairwise.map _
          (fun a b hab => by rw [hnum a, hnum b]; exact hab) hnodup
    · simp only [if_true]
      exact ⟨hknown, hbound, hnodup⟩
  | del n =>
    rw [applyOp_del]
    cases hf : s.dbFail
    · simp only [Bool.false_eq_true, if_false]
      refine ⟨?_, ?_, ?_⟩
      · intro p hp
        exact hknown p (List.mem_filter.mp hp).1
      · intro p hp
        exact hbound p (List.mem_filter.mp hp).1
      · exact hnodup.sublist (List.filter_sublist _)
    · simp only [if_true]
      exact ⟨hknown, hbound, hnodup⟩

lemma storeInv_reachable {s : ParcelStore} (h : Reachable s) : StoreInv s := by
  induction h with
  | empty => exact storeInv_empty
  | step s op _ ih => exact storeInv_applyOp ih op

/-- C5: in every store state reachable by the service operations from
the empty store, one further operation moves each parcel's status only
forward along `registered → sent → delivered`, one step at a time —
never regressing and never skipping `sent` — and a `delivered` parcel
is never changed in any field and never deleted. -/
theorem claim_C5_forward_only_lifecycle (s : ParcelStore) (hs : Reachable s) (op : Op)
    (p : Parcel) (hp : p ∈ s.rows) :
    (∀ p' ∈ (applyOp s op).rows, p'.number = p.number →
      ((p'.status = p.status ∨
        (p.status = "registered" ∧ p'.status = "sent") ∨
        (p.status = "sent" ∧ p'.status = "delivered")) ∧
       (p.status = "delivered" → p' = p))) ∧
    (p.status = "delivered" → p ∈ (applyOp s op).rows) := by
  obtain ⟨hknown, hbound, hnodup⟩ := storeInv_reachable hs
  cases op with
  | register c a ts =>
    rw [applyOp_register]
    cases hf : s.dbFail
    · simp only [Bool.false_eq_true, if_false]
      constructor
      · intro p' hp' hnum
        rcases List.mem_append.mp hp' with hp' | hp'
        · have heq : p' = p := pairwise_ne_mem_eq hnodup hp' hp hnum
          subst heq
          exact ⟨Or.inl rfl, fun _ => rfl⟩
        · exfalso
          rw [List.mem_singleton.mp hp'] at hnum
          exact absurd hnum.symm (Int.ne_of_lt (hbound p hp))
      · intro _
        exact List.mem_append_left _ hp
    · simp only [if_true]
      constructor
      · intro p' hp' hnum
        have heq : p' = p := pairwise_ne_mem_eq hnodup hp' hp hnum
        subst heq
        exact ⟨Or.inl rfl, fun _ => rfl⟩
      · intro _
        exact hp
  | advance n =>
    rcases nextStatus_state s n with hs' | ⟨q, st, _, hqmem, hqn, hcase, hs'⟩
    · have hrows : applyOp s (Op.advance n) = s := hs'
      rw [hrows]
      constructor
      · intro p' hp' hnum
        have heq : p' = p := pairwise_ne_mem_eq hnodup hp' hp hnum
        subst heq
        exact ⟨Or.inl rfl, fun _ => rfl⟩
      · intro _
        exact hp
    · have hrows : applyOp s (Op.advance n) =
          { s with rows := s.rows.map (fun r =>
              if r.number == n then { r with status := st } else r) } := hs'
      rw [hrows]
      have hrnum : ∀ x : Parcel,
          (if x.number == n then { x with status := st } else x).number = x.number := by
        intro x
        by_cases h : x.number = n <;> simp [h]
      constructor
      · intro p' hp' hnum
        rcases List.mem_map.mp hp' with ⟨r, hr, rfl⟩
        rw [hrnum r] at hnum
        have heq : p = r := (pairwise_ne_mem_eq hnodup hr hp hnum).symm
        subst heq
        by_cases hpn : p.number = n
        · have hpq : p = q := pairwise_ne_mem_eq hnodup hp hqmem (by rw [hpn, hqn])
          rw [← hpq] at hcase
          rcases hcase with ⟨hqs, rfl⟩ | ⟨hqs, rfl⟩ | ⟨h1, h2, h3, rfl⟩
          · refine ⟨Or.inr (Or.inl ⟨hqs, by simp [hpn]⟩), fun hdel => ?_⟩
            rw [hqs] at hdel
            exact absurd hdel (by decide)
          · refine ⟨Or.inr (Or.inr ⟨hqs, by simp [hpn]⟩), fun hdel => ?_⟩
            rw [hqs] at hdel
            exact absurd hdel (by decide)
          · exfalso
            rcases hknown p hp with hk | hk | hk
            · exact h1 hk
            · exact h2 hk
            · exact h3 hk
        · have hfp : (if p.number == n then { p with status := st } else p) = p := by
            simp [hpn]
          rw [hfp]
          exact ⟨Or.inl rfl, fun _ => rfl⟩
      · intro hdel
        by_cases hpn : p.number = n
        · exfalso
          have hpq : p = q := pairwise_ne_mem_eq hnodup hp hqmem (by rw [hpn, hqn])
          rcases hcase with ⟨hqs, _⟩ | ⟨hqs, _⟩ | ⟨_, _, h3, _⟩
          · rw [← hpq, hdel] at hqs
            exact absurd hqs (by decide)
          · rw [← hpq, hdel] at hqs
            exact absurd hqs (by decide)
          · rw [← hpq] at h3
            exact h3 hdel
        · exact List.mem_map.mpr ⟨p, hp, by simp [hpn]⟩
  | changeAddress n a =>
    rw [applyOp_changeAddress]
    cases hf : s.dbFail
    · simp only [Bool.false_eq_true, if_false]
      have hrnum : ∀ x : Parcel,
          (if x.number == n && x.status == "registered" then
            { x with address := a } else x).number = x.number := by
        intro x
        by_cases h : (x.number == n && x.status == "registered") = true <;> simp [h]
      have hrstat : ∀ x : Parcel,
          (if x.number == n && x.status == "registered" then
            { x with address := a } else x).status = x.status := by
        intro x
        by_cases h : (x.number == n && x.status == "registered") = true <;> simp [h]
      constructor
      · intro p' hp' hnum
        rcases List.mem_map.mp hp' with ⟨r, hr, rfl⟩
        rw [hrnum r] at hnum
        have heq : p = r := (pairwise_ne_mem_eq hnodup hr hp hnum).symm
        subst heq
        refine ⟨Or.inl (hrstat p), fun hdel => ?_⟩
        simp [hdel]
      · intro hdel
        exact List.mem_map.mpr ⟨p, hp, by simp [hdel]⟩
    · simp only [if_true]
      constructor
      · intro p' hp' hnum
        have heq : p' = p := pairwise_ne_mem_eq hnodup hp' hp hnum
        subst heq
        exact ⟨Or.inl rfl, fun _ => rfl⟩
      · intro _
        exact hp
  | del n =>
    rw [applyOp_del]
    cases hf : s.dbFail
    · simp only [Bool.false_eq_true, if_false]
      constructor
      · intro p' hp' hnum
        have hmem := (List.mem_filter.mp hp').1
        have heq : p' = p := pairwise_ne_mem_eq hnodup hmem hp hnum
        subst heq
        exact ⟨Or.inl rfl, fun _ => rfl⟩
      · intro hdel
        exact List.mem_filter.mpr ⟨hp, by simp [hdel]⟩
    · simp only [if_true]
      constructor
      · intro p' hp' hnum
        have heq : p' = p := pairwise_ne_mem_eq hnodup hp' hp hnum
        subst heq
        exact ⟨Or.inl rfl, fun _ => rfl⟩
      · intro _
        exact hp

/-- C5 witness: the store after one `Register` is reachable and holds
the parcel number 1; advancing it obeys the forward-only law. -/
theorem claim_C5_forward_only_lifecycle_witness :
    ((⟨1, 1, "registered", "addr w", "ts w"⟩ : Parcel) ∈
        (applyOp emptyStore (Op.register 1 "addr w" "ts w")).rows) ∧
    ((∀ p' ∈ (applyOp (applyOp emptyStore (Op.register 1 "addr w" "ts w"))
          (Op.advance 1)).rows,
        p'.number = (⟨1, 1, "registered", "addr w", "ts w"⟩ : Parcel).number →
        ((p'.status = (⟨1, 1, "registered", "addr w", "ts w"⟩ : Parcel).status ∨
          ((⟨1, 1, "registered", "addr w", "ts w"⟩ : Parcel).status = "registered" ∧
            p'.status = "sent") ∨
          ((⟨1, 1, "registered", "addr w", "ts w"⟩ : Parcel).status = "sent" ∧
            p'.status = "delivered")) ∧
         ((⟨1, 1, "registered", "addr w", "ts w"⟩ : Parcel).status = "delivered" →
            p' = ⟨1, 1, "registered", "addr w", "ts w"⟩))) ∧
     ((⟨1, 1, "registered", "addr w", "ts w"⟩ : Parcel).status = "delivered" →
        (⟨1, 1, "registered", "addr w", "ts w"⟩ : Parcel) ∈
          (applyOp (applyOp emptyStore (Op.register 1 "addr w" "ts w"))
            (Op.advance 1)).rows)) :=
  ⟨by decide,
    claim_C5_forward_only_lifecycle _
      (Reachable.step emptyStore (Op.register 1 "addr w" "ts w") Reachable.empty)
      (Op.advance 1) _ (by decide)⟩
